import Mathlib

/-!
Verification of the service-clipper job pipeline: a shallow embedding of
`src/job_handler/handler.py` (`process_job`), `src/segmenter/segment.py`
(`export_segments`) and `src/transcriber/transcribe.py` (`transcribe_video`).

External effects (filesystem probes, ffmpeg extraction calls, the
transcription network service, file writes) are modelled by an oracle
record `Env`; observable side effects performed by the orchestrator
(directory creation, file writes) are recorded in an event trace.
Python `dict` results are modelled as insertion-ordered association
lists so that field presence and serialization order are faithful.
-/

namespace ServiceClipper

/-! ### Python `os.path` helpers (posixpath semantics) -/

/-- Model of `os.path.basename`: the part after the last `/` (computed by a
structural fold so that it reduces inside the kernel). -/
def basename (p : String) : String :=
  String.mk (p.data.foldl (fun acc c => if c = '/' then [] else acc ++ [c]) [])

/-- Python `s.replace(":", "-")` for the one-character pattern: replace every
colon by a dash. -/
def replaceColons (s : String) : String :=
  String.mk (s.data.map (fun c => if c = ':' then '-' else c))

/-- Last index of character `c` in `cs`, if any. -/
def lastIndexOf (cs : List Char) (c : Char) : Option Nat :=
  (cs.foldl (fun acc ch =>
    (if ch = c then some acc.2 else acc.1, acc.2 + 1)) ((none : Option Nat), 0)).1

/-- Model of `os.path.splitext(p)[0]`: drop the extension at the last dot,
provided the dot lies after the last `/` and the name part before it is not
made only of dots (so `.bashrc` keeps its name, Python semantics). -/
def splitextRoot (p : String) : String :=
  let cs := p.data
  match lastIndexOf cs '.' with
  | none => p
  | some d =>
    let s := match lastIndexOf cs '/' with
      | none => 0
      | some si => si + 1
    if s ≤ d ∧ (List.range (d - s)).any (fun j => cs.getD (s + j) '.' != '.') then
      String.mk (cs.take d)
    else p

/-- Model of `os.path.join a b` (posixpath, two arguments). -/
def pathJoin (a b : String) : String :=
  if b.data.head? = some '/' then b
  else if a = "" ∨ a.data.getLast? = some '/' then a ++ b
  else a ++ "/" ++ b

/-! ### Result dictionaries (Python `dict` with insertion order) -/

/-- JSON-like values appearing in a job result. -/
inductive JVal where
  | null : JVal
  | str : String → JVal
  | list : List String → JVal
deriving DecidableEq, Repr

/-- A Python dict with string keys, in insertion order. -/
abbrev JobDict := List (String × JVal)

/-- Lookup of a key (first occurrence). -/
def dictGet : JobDict → String → Option JVal
  | [], _ => none
  | (k₁, v) :: rest, k => if k₁ = k then some v else dictGet rest k

/-- Key-presence test. -/
def dictHasKey : JobDict → String → Bool
  | [], _ => false
  | (k₁, _) :: rest, k => k₁ = k || dictHasKey rest k

/-- Python `d[k] = v`: replace in place when the key exists, append otherwise. -/
def dictSet (d : JobDict) (k : String) (v : JVal) : JobDict :=
  if dictHasKey d k then d.map (fun kv => if kv.1 = k then (k, v) else kv)
  else d ++ [(k, v)]

/-! ### Data model -/

/-- A segment spec from the job request; `stop` models the `"end"` key
(`end` is a keyword in Lean). A field is `none` when the key is missing. -/
structure SegmentSpec where
  start : Option String
  stop : Option String
deriving DecidableEq, Repr

/-- The job request dict handed to `process_job`; `none` models a missing
key (`job_details.get(...)`); `segments` defaults to `[]` when missing. -/
structure JobRequest where
  video_path : Option String
  segments : List SegmentSpec
  output_dir : Option String

/-- Oracle record for all external effects consulted by the pipeline. -/
structure Env where
  /-- `os.path.exists` -/
  path_exists : String → Bool
  /-- `os.getenv "OPENAI_API_KEY"` -/
  getenv_api_key : Option String
  /-- `extract_full_audio_from_video video_path output_audio_path` -/
  extract_full_audio : String → String → Option String
  /-- the OpenAI transcription call on the extracted audio file path -/
  transcription_service : String → Except String String
  /-- `extract_audio_segment input_path start_time end_time output_path` -/
  extract_audio_segment : String → String → String → String → Option String
  /-- `extract_video_segment video_path start_time end_time output_path` -/
  extract_video_segment : String → String → String → String → Option String
  /-- whether writing the transcript file at this path succeeds -/
  transcript_write_ok : String → Bool
  /-- whether writing the summary JSON at this path succeeds -/
  summary_write_ok : String → Bool

/-- Observable side effects of the orchestrator, in order. -/
inductive Event where
  | makedirs : String → Event
  | write_text : String → Event
  | write_json : String → JobDict → Event
deriving DecidableEq, Repr

/-! ### `segment.py` -/

/-- Python falsiness of an optional string (`None` or `""`). -/
def optFalsy : Option String → Bool
  | none => true
  | some s => s == ""

/-- A segment spec the export loop treats as valid (both timestamps present
and truthy; `if not start_time or not end_time: continue`). -/
def validSpec (seg : SegmentSpec) : Bool :=
  !(optFalsy seg.start || optFalsy seg.stop)

/-- The shared filename stem: `f"{base}_segment_{i+1}_{safe_start}_{safe_end}"`
with `:` replaced by `-`; `i` is the 0-based loop index as in the source. -/
def segStem (vp : String) (i : Nat) (st en : String) : String :=
  splitextRoot (basename vp) ++ "_segment_" ++ toString (i + 1) ++ "_" ++
    replaceColons st ++ "_" ++ replaceColons en

/-- The loop body of `export_segments`, accumulator-passing like the Python
`for` loop appending to `exported_audio_files` / `exported_video_files`. -/
def exportLoop (env : Env) (vp od : String) :
    List SegmentSpec → Nat → List String → List String → List String × List String
  | [], _, accA, accV => (accA, accV)
  | seg :: rest, i, accA, accV =>
    if optFalsy seg.start || optFalsy seg.stop then
      exportLoop env vp od rest (i + 1) accA accV
    else
      let st := seg.start.getD ""
      let en := seg.stop.getD ""
      let stem := segStem vp i st en
      let accA' := match env.extract_audio_segment vp st en (pathJoin od (stem ++ "_audio.mp3")) with
        | some s => if s != "" && env.path_exists s then accA ++ [s] else accA
        | none => accA
      let accV' := match env.extract_video_segment vp st en (pathJoin od (stem ++ "_video.mp4")) with
        | some s => if s != "" && env.path_exists s then accV ++ [s] else accV
        | none => accV
      exportLoop env vp od rest (i + 1) accA' accV'

/-- `export_segments` from `src/segmenter/segment.py`: short-circuit when the
video does not exist, else run the loop. The directory creations it performs
are not traced at this level (the orchestrator records its own). -/
def export_segments (env : Env) (vp : String) (segments : List SegmentSpec)
    (od : String) : List String × List String :=
  if !env.path_exists vp then ([], [])
  else exportLoop env vp od segments 0 [] []

/-! ### `transcribe.py` -/

/-- `transcribe_video` from `src/transcriber/transcribe.py`. Returns the
optional transcript text together with a flag recording whether the
transcription service was invoked (the network call). Temp-file cleanup in
the Python `finally` block has no bearing on the returned value and is not
modelled. -/
def transcribe_video (env : Env) (video_path temp_audio_path : String) :
    Option String × Bool :=
  match env.getenv_api_key with
  | none => (none, false)
  | some k =>
    if k == "" then (none, false)
    else
      match env.extract_full_audio video_path temp_audio_path with
      | none => (none, false)
      | some p =>
        if p == "" || !env.path_exists p then (none, false)
        else
          match env.transcription_service p with
          | Except.ok t => (some t, true)
          | Except.error _ => (none, true)

/-- The guard `not extracted_audio_file_path or not os.path.exists(...)`:
full-audio extraction failed or produced a missing/empty path. -/
def fullAudioFailed (env : Env) (vp tmp : String) : Bool :=
  match env.extract_full_audio vp tmp with
  | none => true
  | some p => p == "" || !env.path_exists p

/-! ### `handler.py` (`process_job`) -/

/-- The guard `not video_path or not os.path.exists(video_path)`. -/
def videoInvalid (env : Env) (jd : JobRequest) : Bool :=
  match jd.video_path with
  | none => true
  | some s => s == "" || !env.path_exists s

/-- Python f-string rendering of the optional `video_path` (`None` prints as
`"None"`). -/
def pyShowOptStr : Option String → String
  | none => "None"
  | some s => s

/-- The video path as a string on the validated path (where it is present and
nonempty). -/
def vpStr (jd : JobRequest) : String :=
  jd.video_path.getD ""

/-- The error message of the fail-fast return for a missing video. -/
def missingVideoMsg (jd : JobRequest) : String :=
  "Video path '" ++ pyShowOptStr jd.video_path ++ "' not provided or video does not exist."

/-- The dict literal returned on the fail-fast path (note its key set: no
`video_path_processed`, no `job_output_directory`). -/
def earlyResult (jd : JobRequest) : JobDict :=
  [("transcript_content", JVal.null),
   ("transcript_file", JVal.null),
   ("exported_audio_segments", JVal.list []),
   ("exported_video_segments", JVal.list []),
   ("job_status_file", JVal.null),
   ("error", JVal.str (missingVideoMsg jd))]

/-- The default output directory derived when `output_dir` is falsy:
`outputs/<video basename without extension>_job_output`. -/
def defaultOutputDir (jd : JobRequest) : String :=
  let vb := match jd.video_path with
    | none => "unknown_video"
    | some s => if s == "" then "unknown_video" else basename s
  pathJoin "outputs" (splitextRoot vb ++ "_job_output")

/-- The output directory actually used (`if not output_dir:` defaulting). -/
def effectiveOutputDir (jd : JobRequest) : String :=
  match jd.output_dir with
  | none => defaultOutputDir jd
  | some d => if d == "" then defaultOutputDir jd else d

/-- The temp audio path handed to `transcribe_video`:
`<output_dir>/temp_audio/<video name without ext>_whisper_input.wav`. -/
def tempAudioPathFor (jd : JobRequest) : String :=
  pathJoin (pathJoin (effectiveOutputDir jd) "temp_audio")
    (splitextRoot (basename (vpStr jd)) ++ "_whisper_input.wav")

/-- Section 1 of `process_job`: run transcription and, when it produced text,
attempt to save `transcript.txt` (an `IOError` leaves the path `None` and sets
no error). Returns (content, saved path, service-called flag). -/
def transcriptOutcome (env : Env) (jd : JobRequest) :
    Option String × Option String × Bool :=
  let r := transcribe_video env (vpStr jd) (tempAudioPathFor jd)
  match r.1 with
  | none => (none, none, r.2)
  | some t =>
    let p := pathJoin (effectiveOutputDir jd) "transcript.txt"
    if env.transcript_write_ok p then (some t, some p, r.2)
    else (some t, none, r.2)

/-- Section 2 of `process_job`: export segments only when the request's
segment list is non-empty (`if segments_to_export:`). -/
def exportOutcome (env : Env) (jd : JobRequest) : List String × List String :=
  if jd.segments.isEmpty then ([], [])
  else export_segments env (vpStr jd) jd.segments
    (pathJoin (effectiveOutputDir jd) "segments")

/-- Optional string as a JSON value (`None` serializes to `null`). -/
def jOptStr : Option String → JVal
  | none => JVal.null
  | some s => JVal.str s

/-- Error message when transcription failed and no segments were requested. -/
def msgNoSegments : String :=
  "Transcription failed and no segments were requested for export."

/-- Error message when transcription failed (segments were requested). -/
def msgTranscriptionFailed : String :=
  "Transcription failed."

/-- Section 3 of `process_job`: the `final_results` dict as it stands right
before the summary write — the dict literal followed by the two-branch error
assignment keyed on `transcript_text_content is None` and on whether segments
were requested. This is exactly the object handed to `json.dump`. -/
def consolidate (env : Env) (jd : JobRequest) : JobDict :=
  let t := transcriptOutcome env jd
  let eo := exportOutcome env jd
  let fr : JobDict :=
    [("transcript_content", jOptStr t.1),
     ("transcript_file", jOptStr t.2.1),
     ("exported_audio_segments", JVal.list eo.1),
     ("exported_video_segments", JVal.list eo.2),
     ("video_path_processed", JVal.str (vpStr jd)),
     ("job_output_directory", JVal.str (effectiveOutputDir jd)),
     ("error", JVal.null)]
  if t.1.isNone && jd.segments.isEmpty then
    dictSet fr "error" (JVal.str msgNoSegments)
  else if t.1.isNone then
    dictSet fr "error" (JVal.str msgTranscriptionFailed)
  else fr

/-- `process_job` from `src/job_handler/handler.py`: fail fast on a missing
video (no directory creation, no summary write — empty trace), otherwise run
transcription then segment export, consolidate, and attempt the summary
write; `job_status_file` is assigned into the dict only after `json.dump`,
so the dumped object is `consolidate env jd` itself. The trace records the
orchestrator-level `os.makedirs` calls and successful file writes, in
program order. -/
def process_job (env : Env) (jd : JobRequest) : JobDict × List Event :=
  if videoInvalid env jd then (earlyResult jd, [])
  else
    let od := effectiveOutputDir jd
    let t := transcriptOutcome env jd
    let fr := consolidate env jd
    let trace0 := [Event.makedirs od, Event.makedirs (pathJoin od "temp_audio")]
    let trace1 := trace0 ++
      (if t.2.1.isSome then [Event.write_text (pathJoin od "transcript.txt")] else [])
    let trace2 := trace1 ++
      (if jd.segments.isEmpty then [] else [Event.makedirs (pathJoin od "segments")])
    let sp := pathJoin od "job_summary.json"
    if env.summary_write_ok sp then
      (dictSet fr "job_status_file" (JVal.str sp), trace2 ++ [Event.write_json sp fr])
    else
      (dictSet fr "job_status_file" JVal.null, trace2)

/-! ### Characterization of the export loop -/

/-- The audio files contributed by the single segment at 0-based index `i`:
empty on an invalid spec or a failed/vanished extraction, a singleton on
success. Depends only on the audio extraction oracle and `path_exists`. -/
def audioHere (env : Env) (vp od : String) (i : Nat) (seg : SegmentSpec) : List String :=
  if optFalsy seg.start || optFalsy seg.stop then []
  else
    let st := seg.start.getD ""
    let en := seg.stop.getD ""
    match env.extract_audio_segment vp st en (pathJoin od (segStem vp i st en ++ "_audio.mp3")) with
    | some s => if s != "" && env.path_exists s then [s] else []
    | none => []

/-- The video files contributed by the single segment at 0-based index `i`.
Depends only on the video extraction oracle and `path_exists`. -/
def videoHere (env : Env) (vp od : String) (i : Nat) (seg : SegmentSpec) : List String :=
  if optFalsy seg.start || optFalsy seg.stop then []
  else
    let st := seg.start.getD ""
    let en := seg.stop.getD ""
    match env.extract_video_segment vp st en (pathJoin od (segStem vp i st en ++ "_video.mp4")) with
    | some s => if s != "" && env.path_exists s then [s] else []
    | none => []

/-- Per-segment audio successes concatenated in input order. -/
def audioAll (env : Env) (vp od : String) : List SegmentSpec → Nat → List String
  | [], _ => []
  | seg :: rest, i => audioHere env vp od i seg ++ audioAll env vp od rest (i + 1)

/-- Per-segment video successes concatenated in input order. -/
def videoAll (env : Env) (vp od : String) : List SegmentSpec → Nat → List String
  | [], _ => []
  | seg :: rest, i => videoHere env vp od i seg ++ videoAll env vp od rest (i + 1)

/-- Replace only the audio extraction oracle of an environment. -/
def setAudioOracle (env : Env) (f : String → String → String → String → Option String) : Env :=
  ⟨env.path_exists, env.getenv_api_key, env.extract_full_audio, env.transcription_service,
   f, env.extract_video_segment, env.transcript_write_ok, env.summary_write_ok⟩

theorem exportLoop_eq (env : Env) (vp od : String) :
    ∀ (segs : List SegmentSpec) (i : Nat) (accA accV : List String),
    exportLoop env vp od segs i accA accV =
      (accA ++ audioAll env vp od segs i, accV ++ videoAll env vp od segs i) := by
  intro segs
  induction segs with
  | nil => intro i accA accV; simp [exportLoop, audioAll, videoAll]
  | cons seg rest ih =>
    intro i accA accV
    by_cases h : (optFalsy seg.start || optFalsy seg.stop) = true
    · simp [exportLoop, audioAll, videoAll, audioHere, videoHere, h, ih]
    · simp only [exportLoop, audioAll, videoAll, audioHere, videoHere, h]
      simp only [Bool.false_eq_true, if_false, ih]
      cases ha : env.extract_audio_segment vp (seg.start.getD "") (seg.stop.getD "")
          (pathJoin od (segStem vp i (seg.start.getD "") (seg.stop.getD "") ++ "_audio.mp3")) with
      | none =>
        cases hv : env.extract_video_segment vp (seg.start.getD "") (seg.stop.getD "")
            (pathJoin od (segStem vp i (seg.start.getD "") (seg.stop.getD "") ++ "_video.mp4")) with
        | none => simp
        | some s => by_cases hs : (s != "" && env.path_exists s) = true <;> simp [hs]
      | some s =>
        cases hv : env.extract_video_segment vp (seg.start.getD "") (seg.stop.getD "")
            (pathJoin od (segStem vp i (seg.start.getD "") (seg.stop.getD "") ++ "_video.mp4")) with
        | none =>
          by_cases hs : (s != "" && env.path_exists s) = true <;> simp [hs]
        | some s₂ =>
          by_cases hs : (s != "" && env.path_exists s) = true <;>
            by_cases hs₂ : (s₂ != "" && env.path_exists s₂) = true <;> simp [hs, hs₂]

/-- A segment spec with both fields present (keys exist in the dict). -/
def hasBoth (seg : SegmentSpec) : Bool :=
  seg.start.isSome && seg.stop.isSome

theorem audioHere_length_le (env : Env) (vp od : String) (i : Nat) (seg : SegmentSpec) :
    (audioHere env vp od i seg).length ≤ 1 := by
  by_cases h : (optFalsy seg.start || optFalsy seg.stop) = true
  · simp [audioHere, h]
  · rw [Bool.not_eq_true] at h
    cases ha : env.extract_audio_segment vp (seg.start.getD "") (seg.stop.getD "")
        (pathJoin od (segStem vp i (seg.start.getD "") (seg.stop.getD "") ++ "_audio.mp3")) with
    | none => simp [audioHere, h, ha]
    | some s =>
      by_cases hs : (s != "" && env.path_exists s) = true <;>
        simp [audioHere, h, ha, hs]

theorem videoHere_length_le (env : Env) (vp od : String) (i : Nat) (seg : SegmentSpec) :
    (videoHere env vp od i seg).length ≤ 1 := by
  by_cases h : (optFalsy seg.start || optFalsy seg.stop) = true
  · simp [videoHere, h]
  · rw [Bool.not_eq_true] at h
    cases ha : env.extract_video_segment vp (seg.start.getD "") (seg.stop.getD "")
        (pathJoin od (segStem vp i (seg.start.getD "") (seg.stop.getD "") ++ "_video.mp4")) with
    | none => simp [videoHere, h, ha]
    | some s =>
      by_cases hs : (s != "" && env.path_exists s) = true <;>
        simp [videoHere, h, ha, hs]

theorem audioHere_eq_nil_of_missing (env : Env) (vp od : String) (i : Nat)
    (seg : SegmentSpec) (h : hasBoth seg = false) :
    audioHere env vp od i seg = [] := by
  unfold hasBoth at h
  unfold audioHere
  cases hs : seg.start with
  | none => simp [optFalsy]
  | some a =>
    cases ht : seg.stop with
    | none => simp [optFalsy]
    | some b => rw [hs, ht] at h; simp at h

theorem videoHere_eq_nil_of_missing (env : Env) (vp od : String) (i : Nat)
    (seg : SegmentSpec) (h : hasBoth seg = false) :
    videoHere env vp od i seg = [] := by
  unfold hasBoth at h
  unfold videoHere
  cases hs : seg.start with
  | none => simp [optFalsy]
  | some a =>
    cases ht : seg.stop with
    | none => simp [optFalsy]
    | some b => rw [hs, ht] at h; simp at h

theorem audioAll_length_le (env : Env) (vp od : String) :
    ∀ (segs : List SegmentSpec) (i : Nat),
    (audioAll env vp od segs i).length ≤ (segs.filter hasBoth).length := by
  intro segs
  induction segs with
  | nil => intro i; simp [audioAll]
  | cons seg rest ih =>
    intro i
    rw [audioAll, List.length_append, List.filter_cons]
    by_cases h : hasBoth seg = true
    · simp only [h, if_true, List.length_cons]
      have h1 := audioHere_length_le env vp od i seg
      have h2 := ih (i + 1)
      omega
    · rw [Bool.not_eq_true] at h
      rw [audioHere_eq_nil_of_missing env vp od i seg h]
      simp only [h, Bool.false_eq_true, if_false, List.length_nil, Nat.zero_add]
      exact ih (i + 1)

theorem videoAll_length_le (env : Env) (vp od : String) :
    ∀ (segs : List SegmentSpec) (i : Nat),
    (videoAll env vp od segs i).length ≤ (segs.filter hasBoth).length := by
  intro segs
  induction segs with
  | nil => intro i; simp [videoAll]
  | cons seg rest ih =>
    intro i
    rw [videoAll, List.length_append, List.filter_cons]
    by_cases h : hasBoth seg = true
    · simp only [h, if_true, List.length_cons]
      have h1 := videoHere_length_le env vp od i seg
      have h2 := ih (i + 1)
      omega
    · rw [Bool.not_eq_true] at h
      rw [videoHere_eq_nil_of_missing env vp od i seg h]
      simp only [h, Bool.false_eq_true, if_false, List.length_nil, Nat.zero_add]
      exact ih (i + 1)

theorem audioAll_mem (env : Env) (vp od : String) :
    ∀ (segs : List SegmentSpec) (i : Nat) (p : String), p ∈ audioAll env vp od segs i →
    env.path_exists p = true ∧ p ≠ "" ∧
      ∃ st en op, env.extract_audio_segment vp st en op = some p := by
  intro segs
  induction segs with
  | nil => intro i p hp; simp [audioAll] at hp
  | cons seg rest ih =>
    intro i p hp
    rw [audioAll, List.mem_append] at hp
    rcases hp with hp | hp
    · by_cases h : (optFalsy seg.start || optFalsy seg.stop) = true
      · simp [audioHere, h] at hp
      · rw [Bool.not_eq_true] at h
        cases ha : env.extract_audio_segment vp (seg.start.getD "") (seg.stop.getD "")
            (pathJoin od (segStem vp i (seg.start.getD "") (seg.stop.getD "") ++ "_audio.mp3")) with
        | none => simp [audioHere, h, ha] at hp
        | some s =>
          by_cases hs : (s != "" && env.path_exists s) = true
          · simp only [audioHere, h, Bool.false_eq_true, if_false, ha, hs, if_true,
              List.mem_singleton] at hp
            subst hp
            rw [Bool.and_eq_true, bne_iff_ne] at hs
            exact ⟨hs.2, hs.1, _, _, _, ha⟩
          · simp [audioHere, h, ha, hs] at hp
    · exact ih (i + 1) p hp

theorem videoAll_mem (env : Env) (vp od : String) :
    ∀ (segs : List SegmentSpec) (i : Nat) (p : String), p ∈ videoAll env vp od segs i →
    env.path_exists p = true ∧ p ≠ "" ∧
      ∃ st en op, env.extract_video_segment vp st en op = some p := by
  intro segs
  induction segs with
  | nil => intro i p hp; simp [videoAll] at hp
  | cons seg rest ih =>
    intro i p hp
    rw [videoAll, List.mem_append] at hp
    rcases hp with hp | hp
    · by_cases h : (optFalsy seg.start || optFalsy seg.stop) = true
      · simp [videoHere, h] at hp
      · rw [Bool.not_eq_true] at h
        cases ha : env.extract_video_segment vp (seg.start.getD "") (seg.stop.getD "")
            (pathJoin od (segStem vp i (seg.start.getD "") (seg.stop.getD "") ++ "_video.mp4")) with
        | none => simp [videoHere, h, ha] at hp
        | some s =>
          by_cases hs : (s != "" && env.path_exists s) = true
          · simp only [videoHere, h, Bool.false_eq_true, if_false, ha, hs, if_true,
              List.mem_singleton] at hp
            subst hp
            rw [Bool.and_eq_true, bne_iff_ne] at hs
            exact ⟨hs.2, hs.1, _, _, _, ha⟩
          · simp [videoHere, h, ha, hs] at hp
    · exact ih (i + 1) p hp

/-- `export_segments` rewritten as the ordered concatenation of per-segment
successes. -/
theorem export_segments_eq (env : Env) (vp : String) (segs : List SegmentSpec)
    (od : String) :
    export_segments env vp segs od =
      if env.path_exists vp = true
      then (audioAll env vp od segs 0, videoAll env vp od segs 0)
      else ([], []) := by
  unfold export_segments
  by_cases h : env.path_exists vp = true
  · simp only [h, Bool.not_true, Bool.false_eq_true, if_false, if_true]
    simpa using exportLoop_eq env vp od segs 0 [] []
  · rw [Bool.not_eq_true] at h
    simp [h]

theorem videoAll_setAudioOracle (env : Env)
    (f : String → String → String → String → Option String) (vp od : String) :
    ∀ (segs : List SegmentSpec) (i : Nat),
    videoAll (setAudioOracle env f) vp od segs i = videoAll env vp od segs i := by
  intro segs
  induction segs with
  | nil => intro i; rfl
  | cons seg rest ih =>
    intro i
    rw [videoAll, videoAll, ih (i + 1)]
    rfl

/-! ### Concrete environments for witnesses and counterexamples -/

/-- Segment extraction always succeeds (returning the requested output path,
as the real `extract_*_segment` do) and every path exists; transcription has
no API key. -/
def env6 : Env :=
  ⟨fun _ => true, none, fun _ _ => none, fun _ => Except.error "offline",
   fun _ _ _ op => some op, fun _ _ _ op => some op, fun _ => true, fun _ => true⟩

/-- Extraction fails exactly for the segment starting at `00:00:03` (segment
B below), for audio and video alike. -/
def env7 : Env :=
  ⟨fun _ => true, none, fun _ _ => none, fun _ => Except.error "offline",
   fun _ st _ op => if st == "00:00:03" then none else some op,
   fun _ st _ op => if st == "00:00:03" then none else some op,
   fun _ => true, fun _ => true⟩

/-- Extraction always succeeds and every path exists. -/
def env8 : Env :=
  ⟨fun _ => true, none, fun _ _ => none, fun _ => Except.error "offline",
   fun _ _ _ op => some op, fun _ _ _ op => some op, fun _ => true, fun _ => true⟩

/-- Full-audio extraction fails although an API key is configured. -/
def env9 : Env :=
  ⟨fun _ => true, some "key", fun _ _ => none, fun _ => Except.ok "text",
   fun _ _ _ _ => none, fun _ _ _ _ => none, fun _ => true, fun _ => true⟩

/-! ### Claim theorems: segmenter and transcriber -/

/-- C6: for every input to the Segment Export Step, each returned list has
length at most the number of segment specs that have both `start` and `end`,
and a path is appended to a list only if the corresponding extraction call
returned that (nonempty) path and `os.path.exists` confirmed the file at
append time. -/
theorem C6_export_invariant (env : Env) (vp : String) (segs : List SegmentSpec)
    (od : String) :
    ((export_segments env vp segs od).1.length ≤ (segs.filter hasBoth).length ∧
     (export_segments env vp segs od).2.length ≤ (segs.filter hasBoth).length) ∧
    (∀ p, p ∈ (export_segments env vp segs od).1 →
      env.path_exists p = true ∧ p ≠ "" ∧
      ∃ st en op, env.extract_audio_segment vp st en op = some p) ∧
    (∀ p, p ∈ (export_segments env vp segs od).2 →
      env.path_exists p = true ∧ p ≠ "" ∧
      ∃ st en op, env.extract_video_segment vp st en op = some p) := by
  rw [export_segments_eq]
  by_cases h : env.path_exists vp = true
  · simp only [h, if_true]
    exact ⟨⟨audioAll_length_le env vp od segs 0, videoAll_length_le env vp od segs 0⟩,
      fun p hp => audioAll_mem env vp od segs 0 p hp,
      fun p hp => videoAll_mem env vp od segs 0 p hp⟩
  · simp [h]

/-- Witness for C6: a concrete run whose audio list contains a path, at which
the membership part of the invariant is discharged. -/
theorem C6_witness :
    env6.path_exists "out/v_segment_1_a_b_audio.mp3" = true ∧
    "out/v_segment_1_a_b_audio.mp3" ≠ "" ∧
    (∃ st en op,
      env6.extract_audio_segment "v.mp4" st en op = some "out/v_segment_1_a_b_audio.mp3") :=
  (C6_export_invariant env6 "v.mp4" [⟨some "a", some "b"⟩] "out").2.1
    "out/v_segment_1_a_b_audio.mp3" (by decide)

/-- C7: `export_segments` equals the in-order concatenation of per-segment
outcomes — strictly input order, no abort on a failed segment, both lists
restricted to successes — the video outcome is unchanged under any
replacement of the audio extraction oracle (video extraction is attempted
independently of the audio result), a nonexistent video path yields two empty
lists, and on the concrete `[A, B, C]` run where B fails both extractions the
lists are exactly `[A_audio, C_audio]` and `[A_video, C_video]`. -/
theorem C7_export_order (env : Env) (vp : String) (segs : List SegmentSpec)
    (od : String) :
    (export_segments env vp segs od =
      if env.path_exists vp = true
      then (audioAll env vp od segs 0, videoAll env vp od segs 0)
      else ([], [])) ∧
    (∀ i seg rest,
      audioAll env vp od (seg :: rest) i =
        audioHere env vp od i seg ++ audioAll env vp od rest (i + 1) ∧
      videoAll env vp od (seg :: rest) i =
        videoHere env vp od i seg ++ videoAll env vp od rest (i + 1)) ∧
    (∀ f, (export_segments (setAudioOracle env f) vp segs od).2 =
      (export_segments env vp segs od).2) ∧
    export_segments env7 "v.mp4"
        [⟨some "00:00:01", some "00:00:02"⟩, ⟨some "00:00:03", some "00:00:04"⟩,
         ⟨some "00:00:05", some "00:00:06"⟩] "segs" =
      (["segs/v_segment_1_00-00-01_00-00-02_audio.mp3",
        "segs/v_segment_3_00-00-05_00-00-06_audio.mp3"],
       ["segs/v_segment_1_00-00-01_00-00-02_video.mp4",
        "segs/v_segment_3_00-00-05_00-00-06_video.mp4"]) := by
  refine ⟨export_segments_eq env vp segs od, fun i seg rest => ⟨rfl, rfl⟩, fun f => ?_, by decide⟩
  have hpe : (setAudioOracle env f).path_exists = env.path_exists := rfl
  rw [export_segments_eq, export_segments_eq, hpe]
  by_cases h : env.path_exists vp = true
  · simp only [h, if_true]
    exact videoAll_setAudioOracle env f vp od segs 0
  · simp [h]

/-- C8: the filename stem of a valid segment at 0-based loop index `i` is
`<basename without extension>_segment_<i+1>_<start with : replaced>_<end with
: replaced>`; the example segment at 1-based index 2 of `clip.mp4` yields the
stem `clip_segment_2_00-00-03_00-00-08`, and the exported files are
`<stem>_audio.mp3` and `<stem>_video.mp4` under the output directory. -/
theorem C8_filename_stem :
    segStem "clip.mp4" 1 "00:00:03" "00:00:08" = "clip_segment_2_00-00-03_00-00-08" ∧
    (∀ vp i st en, segStem vp i st en =
      splitextRoot (basename vp) ++ "_segment_" ++ toString (i + 1) ++ "_" ++
        replaceColons st ++ "_" ++ replaceColons en) ∧
    export_segments env8 "clip.mp4"
        [⟨some "00:00:10", some "00:00:20"⟩, ⟨some "00:00:03", some "00:00:08"⟩] "segs" =
      (["segs/clip_segment_1_00-00-10_00-00-20_audio.mp3",
        "segs/clip_segment_2_00-00-03_00-00-08_audio.mp3"],
       ["segs/clip_segment_1_00-00-10_00-00-20_video.mp4",
        "segs/clip_segment_2_00-00-03_00-00-08_video.mp4"]) :=
  ⟨by decide, fun vp i st en => rfl, by decide⟩

/-- C9: whenever full-audio extraction fails or its output file is absent,
`transcribe_video` returns no transcript and the transcription service is
never invoked (the service-called flag is `false`). -/
theorem C9_no_network_on_extraction_failure (env : Env) (vp tmp : String)
    (h : fullAudioFailed env vp tmp = true) :
    transcribe_video env vp tmp = (none, false) := by
  unfold fullAudioFailed at h
  unfold transcribe_video
  cases hk : env.getenv_api_key with
  | none => rfl
  | some k =>
    by_cases hke : (k == "") = true
    · simp [hke]
    · cases ha : env.extract_full_audio vp tmp with
      | none => simp [hke, ha]
      | some p =>
        rw [ha] at h
        simp only [Bool.or_eq_true, beq_iff_eq, Bool.not_eq_eq_eq_not, Bool.not_true] at h
        rcases h with h | h <;> simp [hke, ha, h]

/-- Witness for C9: a concrete environment with an API key whose full-audio
extraction fails; no transcript, no service call. -/
theorem C9_witness :
    fullAudioFailed env9 "v.mp4" "tmp.wav" = true ∧
    transcribe_video env9 "v.mp4" "tmp.wav" = (none, false) :=
  ⟨by decide, C9_no_network_on_extraction_failure env9 "v.mp4" "tmp.wav" (by decide)⟩

/-! ### Dictionary lemmas -/

theorem dictGet_cons (a : String) (b : JVal) (d : JobDict) (k : String) :
    dictGet ((a, b) :: d) k = if a = k then some b else dictGet d k := rfl

theorem dictHasKey_cons (a : String) (b : JVal) (d : JobDict) (k : String) :
    dictHasKey ((a, b) :: d) k = (decide (a = k) || dictHasKey d k) := rfl

theorem dictGet_map_set_ne (d : JobDict) (k k' : String) (v : JVal) (h : ¬k = k') :
    dictGet (d.map (fun kv => if kv.1 = k then (k, v) else kv)) k' = dictGet d k' := by
  induction d with
  | nil => rfl
  | cons kv rest ih =>
    obtain ⟨a, b⟩ := kv
    rw [List.map_cons]
    by_cases h1 : a = k
    · rw [if_pos h1, dictGet_cons, dictGet_cons]
      have h2 : ¬a = k' := by rw [h1]; exact h
      rw [if_neg h, if_neg h2, ih]
    · rw [if_neg h1, dictGet_cons, dictGet_cons]
      by_cases h2 : a = k'
      · rw [if_pos h2, if_pos h2]
      · rw [if_neg h2, if_neg h2, ih]

theorem dictGet_append_single_ne (d : JobDict) (k k' : String) (v : JVal) (h : ¬k = k') :
    dictGet (d ++ [(k, v)]) k' = dictGet d k' := by
  induction d with
  | nil => simp [dictGet, h]
  | cons kv rest ih =>
    obtain ⟨a, b⟩ := kv
    by_cases h2 : a = k'
    · simp [dictGet, h2]
    · simp [dictGet, h2, ih]

theorem dictGet_dictSet_ne (d : JobDict) (k k' : String) (v : JVal) (h : ¬k = k') :
    dictGet (dictSet d k v) k' = dictGet d k' := by
  unfold dictSet
  by_cases hk : dictHasKey d k = true
  · simp only [hk, if_true]
    exact dictGet_map_set_ne d k k' v h
  · simp only [hk, Bool.false_eq_true, if_false]
    exact dictGet_append_single_ne d k k' v h

theorem dictGet_map_set_same (d : JobDict) (k : String) (v : JVal) :
    dictHasKey d k = true →
    dictGet (d.map (fun kv => if kv.1 = k then (k, v) else kv)) k = some v := by
  induction d with
  | nil => intro hk; simp [dictHasKey] at hk
  | cons kv rest ih =>
    obtain ⟨a, b⟩ := kv
    intro hk
    rw [List.map_cons]
    by_cases h1 : a = k
    · rw [if_pos h1, dictGet_cons, if_pos rfl]
    · rw [if_neg h1, dictGet_cons, if_neg h1]
      apply ih
      rw [dictHasKey_cons] at hk
      simpa [h1] using hk

theorem dictGet_append_single_same (d : JobDict) (k : String) (v : JVal) :
    dictHasKey d k = false → dictGet (d ++ [(k, v)]) k = some v := by
  induction d with
  | nil => intro _; simp [dictGet]
  | cons kv rest ih =>
    obtain ⟨a, b⟩ := kv
    intro hk
    simp only [dictHasKey, Bool.or_eq_false_iff, decide_eq_false_iff_not] at hk
    simp [dictGet, hk.1, ih hk.2]

theorem dictGet_dictSet_same (d : JobDict) (k : String) (v : JVal) :
    dictGet (dictSet d k v) k = some v := by
  unfold dictSet
  by_cases hk : dictHasKey d k = true
  · simp only [hk, if_true]
    exact dictGet_map_set_same d k v hk
  · simp only [hk, Bool.false_eq_true, if_false]
    rw [Bool.not_eq_true] at hk
    exact dictGet_append_single_same d k v hk

theorem getLast?_append_single {α : Type} (l : List α) (a : α) :
    (l ++ [a]).getLast? = some a := by
  induction l with
  | nil => rfl
  | cons x xs ih =>
    rw [List.cons_append, List.getLast?_cons, ih]
    cases xs <;> simp_all

/-! ### Shape lemmas for `process_job` -/

/-- The value the consolidation phase leaves in the `error` field. -/
def consolidateError (env : Env) (jd : JobRequest) : JVal :=
  if (transcriptOutcome env jd).1.isNone && jd.segments.isEmpty then
    JVal.str msgNoSegments
  else if (transcriptOutcome env jd).1.isNone then
    JVal.str msgTranscriptionFailed
  else JVal.null

theorem consolidate_eq (env : Env) (jd : JobRequest) :
    consolidate env jd =
      [("transcript_content", jOptStr (transcriptOutcome env jd).1),
       ("transcript_file", jOptStr (transcriptOutcome env jd).2.1),
       ("exported_audio_segments", JVal.list (exportOutcome env jd).1),
       ("exported_video_segments", JVal.list (exportOutcome env jd).2),
       ("video_path_processed", JVal.str (vpStr jd)),
       ("job_output_directory", JVal.str (effectiveOutputDir jd)),
       ("error", consolidateError env jd)] := by
  unfold consolidate consolidateError
  by_cases h1 : ((transcriptOutcome env jd).1.isNone && jd.segments.isEmpty) = true
  · rw [if_pos h1, if_pos h1]
    rfl
  · rw [if_neg h1, if_neg h1]
    by_cases h2 : (transcriptOutcome env jd).1.isNone = true
    · rw [if_pos h2, if_pos h2]
      rfl
    · rw [if_neg h2, if_neg h2]

/-- The event trace of a validated run, as produced by `process_job`. -/
def mainTrace (env : Env) (jd : JobRequest) : List Event :=
  let od := effectiveOutputDir jd
  ([Event.makedirs od, Event.makedirs (pathJoin od "temp_audio")] ++
    (if (transcriptOutcome env jd).2.1.isSome then
      [Event.write_text (pathJoin od "transcript.txt")] else []) ++
    (if jd.segments.isEmpty then [] else [Event.makedirs (pathJoin od "segments")])) ++
  (if env.summary_write_ok (pathJoin od "job_summary.json") then
    [Event.write_json (pathJoin od "job_summary.json") (consolidate env jd)] else [])

theorem process_job_main (env : Env) (jd : JobRequest) (h : videoInvalid env jd = false) :
    process_job env jd =
      (dictSet (consolidate env jd) "job_status_file"
        (if env.summary_write_ok (pathJoin (effectiveOutputDir jd) "job_summary.json") then
          JVal.str (pathJoin (effectiveOutputDir jd) "job_summary.json")
        else JVal.null),
       mainTrace env jd) := by
  unfold process_job mainTrace
  rw [h]
  simp only [Bool.false_eq_true, if_false]
  by_cases hs : env.summary_write_ok (pathJoin (effectiveOutputDir jd) "job_summary.json") = true
  · simp [hs]
  · simp [hs]

/-! ### Concrete jobs and environments for the handler claims -/

/-- Transcription fails (no API key) and every segment extraction fails. -/
def envC1 : Env :=
  ⟨fun _ => true, none, fun _ _ => none, fun _ => Except.error "offline",
   fun _ _ _ _ => none, fun _ _ _ _ => none, fun _ => true, fun _ => true⟩

/-- A job that requests one segment. -/
def jdC1 : JobRequest :=
  ⟨some "v.mp4", [⟨some "00:00:01", some "00:00:02"⟩], some "out"⟩

/-- Transcription succeeds but writing `transcript.txt` fails. -/
def envC2 : Env :=
  ⟨fun _ => true, some "key", fun _ p => some p, fun _ => Except.ok "hello",
   fun _ _ _ _ => none, fun _ _ _ _ => none, fun _ => false, fun _ => true⟩

/-- A job with no segments requested. -/
def jdC2 : JobRequest := ⟨some "v.mp4", [], some "out"⟩

/-- Everything succeeds except the summary write. -/
def envC3 : Env :=
  ⟨fun _ => true, some "key", fun _ p => some p, fun _ => Except.ok "hello",
   fun _ _ _ _ => none, fun _ _ _ _ => none, fun _ => true, fun _ => false⟩

/-- A job with no segments requested. -/
def jdC3 : JobRequest := ⟨some "v.mp4", [], some "out"⟩

/-- Everything succeeds, including the summary write. -/
def envC4 : Env :=
  ⟨fun _ => true, some "key", fun _ p => some p, fun _ => Except.ok "hello",
   fun _ _ _ _ => none, fun _ _ _ _ => none, fun _ => true, fun _ => true⟩

/-- A job with no segments requested. -/
def jdC4 : JobRequest := ⟨some "v.mp4", [], some "out"⟩

/-- No file exists on this filesystem. -/
def envC5 : Env :=
  ⟨fun _ => false, none, fun _ _ => none, fun _ => Except.error "offline",
   fun _ _ _ _ => none, fun _ _ _ _ => none, fun _ => true, fun _ => true⟩

/-- A job naming a video that does not exist. -/
def jdC5 : JobRequest := ⟨some "ghost.mp4", [], some "out"⟩

/-! ### Claim theorems: orchestrator -/

/-- Counterexample to C1: transcription fails, segments were requested, every
export fails (both exported lists empty, `transcript_content` null), yet the
`error` is merely "Transcription failed." — no message distinguishing
"segment export produced no files" is synthesized, because the code tests
whether segments were requested, not whether the exported lists are empty. -/
theorem C1_counterexample :
    dictGet (process_job envC1 jdC1).1 "transcript_content" = some JVal.null ∧
    jdC1.segments ≠ [] ∧
    dictGet (process_job envC1 jdC1).1 "exported_audio_segments" = some (JVal.list []) ∧
    dictGet (process_job envC1 jdC1).1 "exported_video_segments" = some (JVal.list []) ∧
    dictGet (process_job envC1 jdC1).1 "error" =
      some (JVal.str "Transcription failed.") := by
  decide

/-- C1 amended: the synthesized message is selected by whether the request's
segment list is empty, not by the exported lists: on a validated job whose
transcript is absent, `error` is "Transcription failed and no segments were
requested for export." when no segments were requested, and exactly
"Transcription failed." otherwise — regardless of the export outcomes. -/
theorem C1_amended (env : Env) (jd : JobRequest)
    (h1 : videoInvalid env jd = false)
    (h2 : dictGet (process_job env jd).1 "transcript_content" = some JVal.null) :
    dictGet (process_job env jd).1 "error" =
      some (JVal.str (if jd.segments.isEmpty then msgNoSegments
                      else msgTranscriptionFailed)) := by
  rw [process_job_main env jd h1] at h2 ⊢
  rw [dictGet_dictSet_ne _ _ _ _ (by decide), consolidate_eq] at h2
  rw [dictGet_dictSet_ne _ _ _ _ (by decide), consolidate_eq]
  simp only [dictGet_cons, reduceIte] at h2 ⊢
  cases ht : (transcriptOutcome env jd).1 with
  | some t => rw [ht] at h2; simp [jOptStr] at h2
  | none =>
    unfold consolidateError
    rw [ht]
    by_cases he : jd.segments.isEmpty = true <;> simp [he]

/-- Witness for C1 amended: the concrete failing-everything job with one
requested segment gets exactly "Transcription failed.". -/
theorem C1_amended_witness :
    videoInvalid envC1 jdC1 = false ∧
    dictGet (process_job envC1 jdC1).1 "transcript_content" = some JVal.null ∧
    dictGet (process_job envC1 jdC1).1 "error" =
      some (JVal.str (if jdC1.segments.isEmpty then msgNoSegments
                      else msgTranscriptionFailed)) :=
  ⟨by decide, by decide, C1_amended envC1 jdC1 (by decide) (by decide)⟩

/-- Counterexample to C2: transcription produced text (`"hello"`), the
transcript save failed (`transcript_file` is null), yet `error` is null —
the transcript-save I/O failure is never recorded in `error`. -/
theorem C2_counterexample :
    dictGet (process_job envC2 jdC2).1 "transcript_content" =
      some (JVal.str "hello") ∧
    dictGet (process_job envC2 jdC2).1 "transcript_file" = some JVal.null ∧
    dictGet (process_job envC2 jdC2).1 "error" = some JVal.null := by
  decide

/-- C2 amended: when transcription produces text and the transcript save
fails, `transcript_file` is absent but `error` stays null — the failure is
reported only on stdout, never in the result's `error` field. -/
theorem C2_amended (env : Env) (jd : JobRequest)
    (h1 : videoInvalid env jd = false)
    (h2 : ∃ t, dictGet (process_job env jd).1 "transcript_content" =
      some (JVal.str t))
    (_h3 : dictGet (process_job env jd).1 "transcript_file" = some JVal.null) :
    dictGet (process_job env jd).1 "error" = some JVal.null := by
  obtain ⟨t, h2⟩ := h2
  rw [process_job_main env jd h1] at h2 ⊢
  rw [dictGet_dictSet_ne _ _ _ _ (by decide), consolidate_eq] at h2
  rw [dictGet_dictSet_ne _ _ _ _ (by decide), consolidate_eq]
  simp only [dictGet_cons, reduceIte] at h2 ⊢
  cases ht : (transcriptOutcome env jd).1 with
  | none => rw [ht] at h2; simp [jOptStr] at h2
  | some u =>
    unfold consolidateError
    rw [ht]
    simp

/-- Witness for C2 amended at the concrete environment. -/
theorem C2_amended_witness :
    videoInvalid envC2 jdC2 = false ∧
    dictGet (process_job envC2 jdC2).1 "transcript_file" = some JVal.null ∧
    dictGet (process_job envC2 jdC2).1 "error" = some JVal.null :=
  ⟨by decide, by decide,
    C2_amended envC2 jdC2 (by decide) ⟨"hello", by decide⟩ (by decide)⟩

/-- Counterexample to C3: the summary write fails with no earlier error;
`job_status_file` is null as claimed, but `error` is also null — the code
never sets `error` to describe the summary-write failure. -/
theorem C3_counterexample :
    dictGet (process_job envC3 jdC3).1 "job_status_file" = some JVal.null ∧
    dictGet (process_job envC3 jdC3).1 "error" = some JVal.null := by
  decide

/-- C3 amended: when the summary write fails, `job_status_file` is null and
`error` is exactly whatever the consolidation phase produced — the
summary-write failure itself never sets `error`, whether or not an earlier
error exists. -/
theorem C3_amended (env : Env) (jd : JobRequest)
    (h1 : videoInvalid env jd = false)
    (h2 : env.summary_write_ok
      (pathJoin (effectiveOutputDir jd) "job_summary.json") = false) :
    dictGet (process_job env jd).1 "job_status_file" = some JVal.null ∧
    dictGet (process_job env jd).1 "error" =
      dictGet (consolidate env jd) "error" := by
  rw [process_job_main env jd h1]
  simp only [h2, Bool.false_eq_true, if_false]
  exact ⟨dictGet_dictSet_same _ _ _, dictGet_dictSet_ne _ _ _ _ (by decide)⟩

/-- Witness for C3 amended at the concrete environment. -/
theorem C3_amended_witness :
    videoInvalid envC3 jdC3 = false ∧
    envC3.summary_write_ok
      (pathJoin (effectiveOutputDir jdC3) "job_summary.json") = false ∧
    dictGet (process_job envC3 jdC3).1 "job_status_file" = some JVal.null ∧
    dictGet (process_job envC3 jdC3).1 "error" =
      dictGet (consolidate envC3 jdC3) "error" := by
  refine ⟨by decide, by decide, ?_⟩
  have h := C3_amended envC3 jdC3 (by decide) (by decide)
  exact ⟨h.1, h.2⟩

/-- Counterexample to C4: on a successful summary write, the dumped JSON
object (recorded in the final trace event) is not the returned result: the
dump happens before `job_status_file` is assigned, so the persisted object
lacks that field while the returned dict carries it. -/
theorem C4_counterexample :
    (process_job envC4 jdC4).2.getLast? =
      some (Event.write_json "out/job_summary.json" (consolidate envC4 jdC4)) ∧
    consolidate envC4 jdC4 ≠ (process_job envC4 jdC4).1 ∧
    dictGet (consolidate envC4 jdC4) "job_status_file" = none ∧
    dictGet (process_job envC4 jdC4).1 "job_status_file" =
      some (JVal.str "out/job_summary.json") := by
  decide

/-- C4 amended: whenever the summary write succeeds, the persisted JSON is
the consolidated result *without* `job_status_file`; the returned result is
exactly that object with `("job_status_file", <summary path>)` appended. -/
theorem C4_amended (env : Env) (jd : JobRequest)
    (h1 : videoInvalid env jd = false)
    (h2 : env.summary_write_ok
      (pathJoin (effectiveOutputDir jd) "job_summary.json") = true) :
    (process_job env jd).1 =
      consolidate env jd ++
        [("job_status_file",
          JVal.str (pathJoin (effectiveOutputDir jd) "job_summary.json"))] ∧
    dictHasKey (consolidate env jd) "job_status_file" = false ∧
    (process_job env jd).2.getLast? =
      some (Event.write_json (pathJoin (effectiveOutputDir jd) "job_summary.json")
        (consolidate env jd)) := by
  have hk : dictHasKey (consolidate env jd) "job_status_file" = false := by
    rw [consolidate_eq]; rfl
  refine ⟨?_, hk, ?_⟩
  · rw [process_job_main env jd h1]
    simp only [h2, if_true]
    unfold dictSet
    rw [hk]
    simp
  · rw [process_job_main env jd h1]
    unfold mainTrace
    simp only [h2, if_true]
    exact getLast?_append_single _ _

/-- Witness for C4 amended at the concrete environment. -/
theorem C4_amended_witness :
    videoInvalid envC4 jdC4 = false ∧
    envC4.summary_write_ok
      (pathJoin (effectiveOutputDir jdC4) "job_summary.json") = true ∧
    (process_job envC4 jdC4).1 =
      consolidate envC4 jdC4 ++
        [("job_status_file",
          JVal.str (pathJoin (effectiveOutputDir jdC4) "job_summary.json"))] := by
  refine ⟨by decide, by decide, ?_⟩
  exact (C4_amended envC4 jdC4 (by decide) (by decide)).1

/-- C5: on a missing or nonexistent `video_path`, `process_job` returns at
once with `error` set to a message, null transcript content/file, empty
exported lists, null `job_status_file`, and an empty effect trace — no
directory is created and no summary (or any other) file is written. -/
theorem C5_failfast (env : Env) (jd : JobRequest)
    (h : videoInvalid env jd = true) :
    (∃ s, dictGet (process_job env jd).1 "error" = some (JVal.str s)) ∧
    dictGet (process_job env jd).1 "transcript_content" = some JVal.null ∧
    dictGet (process_job env jd).1 "transcript_file" = some JVal.null ∧
    dictGet (process_job env jd).1 "exported_audio_segments" =
      some (JVal.list []) ∧
    dictGet (process_job env jd).1 "exported_video_segments" =
      some (JVal.list []) ∧
    dictGet (process_job env jd).1 "job_status_file" = some JVal.null ∧
    (process_job env jd).2 = [] := by
  unfold process_job
  rw [h]
  exact ⟨⟨missingVideoMsg jd, rfl⟩, rfl, rfl, rfl, rfl, rfl, rfl⟩

/-- Witness for C5 at a job whose video does not exist. -/
theorem C5_witness :
    videoInvalid envC5 jdC5 = true ∧
    ((∃ s, dictGet (process_job envC5 jdC5).1 "error" = some (JVal.str s)) ∧
      (process_job envC5 jdC5).2 = []) := by
  refine ⟨by decide, ?_⟩
  have h := C5_failfast envC5 jdC5 (by decide)
  exact ⟨h.1, h.2.2.2.2.2.2⟩

/-- C10: the key list of the returned dict is one fixed list on the
fail-fast path and another on every validated path; the fail-fast list
omits `video_path_processed` and `job_output_directory` entirely, while the
validated list always contains both. -/
theorem C10_key_sets (env : Env) (jd : JobRequest) :
    ((process_job env jd).1.map Prod.fst =
      if videoInvalid env jd = true then
        ["transcript_content", "transcript_file", "exported_audio_segments",
         "exported_video_segments", "job_status_file", "error"]
      else
        ["transcript_content", "transcript_file", "exported_audio_segments",
         "exported_video_segments", "video_path_processed",
         "job_output_directory", "error", "job_status_file"]) ∧
    "video_path_processed" ∉
      ["transcript_content", "transcript_file", "exported_audio_segments",
       "exported_video_segments", "job_status_file", "error"] ∧
    "job_output_directory" ∉
      ["transcript_content", "transcript_file", "exported_audio_segments",
       "exported_video_segments", "job_status_file", "error"] := by
  refine ⟨?_, by decide, by decide⟩
  by_cases hv : videoInvalid env jd = true
  · rw [if_pos hv]
    unfold process_job
    rw [hv]
    simp only [if_true]
    rfl
  · rw [if_neg hv]
    rw [Bool.not_eq_true] at hv
    rw [process_job_main env jd hv, consolidate_eq]
    rfl

end ServiceClipper
